import Mathlib

/-!
# Product Store Service: a shallow embedding

A Lean model of the Product CRUD service: the HTTP handlers of
`service/routes.py` and the persistence layer they call.  The repository
ships the route handlers and the model-layer test suite; the model layer
itself (`service/models.py`) is not among the sources, so its operations
are modelled from the specification and are marked `Modelled from the
spec:` in their doc comments.  Route handlers are translated directly
from `service/routes.py`.

Texts handled by the price filter are modelled as lists of characters;
fixed-point decimals as an integer mantissa with a power-of-ten scale.
-/

namespace ProductStore

/-- A fixed-point decimal value: mantissa `m` scaled down by `10 ^ s`,
denoting the rational `m / 10 ^ s` (so `⟨1250, 2⟩` is `12.50`). -/
structure Decimal where
  m : Int
  s : Nat
deriving DecidableEq, Repr

/-- Numeric (value) equality of decimals, by cross multiplication:
`a.m / 10^a.s = b.m / 10^b.s`.  This is the equality Python's `Decimal`
comparison uses (`Decimal("12.5") == Decimal("12.50")`). -/
def Decimal.eqv (a b : Decimal) : Bool :=
  a.m * (10 : Int) ^ b.s == b.m * (10 : Int) ^ a.s

/-- The decimal digit character for `k` (`k ≥ 9` clamps to `'9'`;
only used with `k < 10`). -/
def digitChar (k : Nat) : Char :=
  match k with
  | 0 => '0' | 1 => '1' | 2 => '2' | 3 => '3' | 4 => '4'
  | 5 => '5' | 6 => '6' | 7 => '7' | 8 => '8' | _ => '9'

/-- The numeric value of a decimal digit character, `none` on anything
that is not a digit. -/
def digitVal (c : Char) : Option Nat :=
  if '0' ≤ c ∧ c ≤ '9' then some (c.toNat - '0'.toNat) else none

/-- The decimal digit characters of `n`, most significant first. -/
def digitsOf (n : Nat) : List Char :=
  if _h : n < 10 then [digitChar n]
  else digitsOf (n / 10) ++ [digitChar (n % 10)]
decreasing_by exact Nat.div_lt_self (by omega) (by omega)

/-- Every character in the list is a decimal digit. -/
def allDigits (cs : List Char) : Bool :=
  cs.all (fun c => (digitVal c).isSome)

/-- Reads a digit string back as a natural number (non-digits count 0;
callers guard with `allDigits`). -/
def natVal (cs : List Char) : Nat :=
  cs.foldl (fun a c => 10 * a + ((digitVal c).getD 0)) 0

/-- Left-pads a digit string with `'0'` up to width `w`. -/
def padLeft (w : Nat) (cs : List Char) : List Char :=
  List.replicate (w - cs.length) '0' ++ cs

/-- Renders a decimal in the plain form Python's `str` gives a `Decimal`:
optional `'-'`, integer digits, and, when the scale is positive, `'.'`
followed by exactly `s` fraction digits. -/
def Decimal.toChars (d : Decimal) : List Char :=
  let n := d.m.natAbs
  let sign : List Char := if d.m < 0 then ['-'] else []
  if d.s = 0 then sign ++ digitsOf n
  else sign ++ digitsOf (n / 10 ^ d.s) ++ '.' :: padLeft d.s (digitsOf (n % 10 ^ d.s))

/-- Splits a character list at the first `'.'`: the part before it, and
`some` the part after it (`none` when there is no dot). -/
def splitAtDot (cs : List Char) : List Char × Option (List Char) :=
  match cs with
  | [] => ([], none)
  | c :: rest =>
    if c = '.' then ([], some rest)
    else
      let (a, b) := splitAtDot rest
      (c :: a, b)

/-- Parses an unsigned decimal numeral: digits, optionally followed by
`'.'` and fraction digits. -/
def parseUnsigned (cs : List Char) : Option Decimal :=
  match splitAtDot cs with
  | (ip, none) =>
    if ip ≠ [] ∧ allDigits ip then some ⟨(natVal ip : Int), 0⟩ else none
  | (ip, some fp) =>
    if ip ≠ [] ∧ fp ≠ [] ∧ allDigits ip ∧ allDigits fp then
      some ⟨(natVal (ip ++ fp) : Int), fp.length⟩
    else none

/-- Parses a decimal numeral with an optional leading `'-'`. -/
def parseDecimal (cs : List Char) : Option Decimal :=
  match cs with
  | [] => none
  | c :: rest =>
    if c = '-' then (parseUnsigned rest).map (fun d => ⟨-d.m, d.s⟩)
    else parseUnsigned (c :: rest)

/-- Whitespace, as stripped from textual price input. -/
def isSpaceChar (c : Char) : Bool :=
  c == ' ' || c == '\t' || c == '\n' || c == '\r'

/-- A quote character (double or single quote). -/
def isQuoteChar (c : Char) : Bool :=
  c == '"' || c == '\''

/-- Strips leading and trailing whitespace from a character list. -/
def trimChars (cs : List Char) : List Char :=
  ((cs.dropWhile isSpaceChar).reverse.dropWhile isSpaceChar).reverse

/-- Strips one layer of surrounding quote characters: when the first and
last characters are both quotes, both are removed; otherwise the list is
unchanged. -/
def stripOneQuoteLayer (cs : List Char) : List Char :=
  if 2 ≤ cs.length && isQuoteChar (cs.headD ' ') && isQuoteChar (cs.getLastD ' ')
  then (cs.drop 1).dropLast
  else cs

/-- Normalizes textual price input: strip surrounding whitespace, then a
single layer of surrounding quote characters. -/
def normalizePriceText (cs : List Char) : List Char :=
  stripOneQuoteLayer (trimChars cs)

/-- Modelled from the spec: the closed `Category` enumeration of
`service/models.py` (absent from the sources); the spec names the
members `CLOTHS` and `FOOD`. -/
inductive Category
  | CLOTHS
  | FOOD
deriving DecidableEq, Repr

/-- The enumeration member's string name, as serialized into JSON. -/
def Category.name : Category → String
  | .CLOTHS => "CLOTHS"
  | .FOOD => "FOOD"

/-- Python's `str.upper()`: uppercase every character. -/
def strUpper (s : String) : String :=
  String.mk (s.data.map Char.toUpper)

/-- Python's `str.lower()`: lowercase every character. -/
def strLower (s : String) : String :=
  String.mk (s.data.map Char.toLower)

/-- Modelled from the spec: dynamic lookup of a `Category` member by its
name, as `getattr(Category, s)` does in `list_products`; `none` models
the `AttributeError` raised for a non-member. -/
def categoryOfName (s : String) : Option Category :=
  if s = "CLOTHS" then some Category.CLOTHS
  else if s = "FOOD" then some Category.FOOD
  else none

/-- Modelled from the spec: the `Product` entity of `service/models.py`
(absent from the sources).  `id` is `none` before first persistence. -/
structure Product where
  id : Option Nat
  name : String
  description : String
  price : Decimal
  available : Bool
  category : Category
deriving DecidableEq, Repr

/-- A freshly constructed `Product()` before `deserialize` populates it:
`id` unset, the remaining fields at inert defaults (every field except
`id` is overwritten before use). -/
def Product.empty : Product :=
  ⟨none, "", "", ⟨0, 0⟩, false, Category.CLOTHS⟩

/-- The JSON projection of a product: all fields, `category` as its
string name. -/
structure ProductJson where
  id : Option Nat
  name : String
  description : String
  price : Decimal
  available : Bool
  category : String
deriving DecidableEq, Repr

/-- Modelled from the spec: `serialize` projects all fields, including
`id` and `category` as its string name, into a plain mapping. -/
def Product.serialize (p : Product) : ProductJson :=
  ⟨p.id, p.name, p.description, p.price, p.available, p.category.name⟩

/-- The relational store: the product rows plus the next id the store
will assign (ids are auto-incremented and never reused). -/
structure Store where
  rows : List Product
  nextId : Nat
deriving DecidableEq, Repr

/-- Modelled from the spec: `Product.all()` returns every row,
unfiltered, in store-native order. -/
def allProducts (st : Store) : List Product :=
  st.rows

/-- Modelled from the spec: `Product.find(id)`, single-row lookup by
primary key. -/
def find (pid : Nat) (st : Store) : Option Product :=
  st.rows.find? (fun r => r.id == some pid)

/-- Modelled from the spec: `Product.create()` inserts a new row; the
store assigns the generated id, written back onto the record. -/
def Product.create (p : Product) (st : Store) : Product × Store :=
  let p2 : Product := { p with id := some st.nextId }
  (p2, ⟨st.rows ++ [p2], st.nextId + 1⟩)

/-- The validation failures of the model layer. -/
inductive DataValidationError
  | missingId
  | badField (field : String)
deriving DecidableEq, Repr

/-- Modelled from the spec: `Product.update()` fails immediately with a
`DataValidationError` when `id` is unset; otherwise it replaces all
mutable fields of the existing row matching `id`. -/
def Product.update (p : Product) (st : Store) : Except DataValidationError Store :=
  match p.id with
  | none => .error DataValidationError.missingId
  | some _ => .ok { st with rows := st.rows.map (fun r => if r.id = p.id then p else r) }

/-- Modelled from the spec: `Product.delete()` removes the row matching
`id` if present; a no-op when absent. -/
def Product.delete (p : Product) (st : Store) : Store :=
  { st with rows := st.rows.filter (fun r => !(r.id == p.id)) }

/-- Modelled from the spec: `Product.find_by_name(name)`, case-sensitive
exact match on `name`. -/
def find_by_name (n : String) (st : Store) : List Product :=
  st.rows.filter (fun r => r.name == n)

/-- Modelled from the spec: `Product.find_by_category(category)`, exact
match on `category`. -/
def find_by_category (c : Category) (st : Store) : List Product :=
  st.rows.filter (fun r => r.category == c)

/-- Modelled from the spec: `Product.find_by_availability(bool)`, exact
match on `available`. -/
def find_by_availability (b : Bool) (st : Store) : List Product :=
  st.rows.filter (fun r => r.available == b)

/-- Exact decimal-equality match on `price`. -/
def find_by_price_dec (d : Decimal) (st : Store) : List Product :=
  st.rows.filter (fun r => r.price.eqv d)

/-- The argument to `find_by_price`: either a native decimal or a text
representation. -/
inductive PriceInput
  | dec (d : Decimal)
  | text (cs : List Char)
deriving DecidableEq, Repr

/-- Modelled from the spec: `Product.find_by_price(value)` accepts a
native decimal or a text representation; text is stripped of surrounding
whitespace and a single layer of surrounding quote characters, then
parsed into a decimal for an exact decimal-equality comparison.  `none`
models the parse failure on unparseable text. -/
def find_by_price (v : PriceInput) (st : Store) : Option (List Product) :=
  match v with
  | .dec d => some (find_by_price_dec d st)
  | .text cs => (parseDecimal (normalizePriceText cs)).map (fun d => find_by_price_dec d st)

/-- A JSON value, as far as the payloads of this service need. -/
inductive JsonVal
  | str (s : String)
  | num (d : Decimal)
  | jbool (b : Bool)
  | null
deriving DecidableEq, Repr

/-- An untyped request payload: the value found at each product key of
the JSON object, `none` when the key is absent. -/
structure Payload where
  name : Option JsonVal
  description : Option JsonVal
  price : Option JsonVal
  available : Option JsonVal
  category : Option JsonVal
deriving DecidableEq, Repr

/-- Modelled from the spec: `Product.deserialize(data)` populates the
fields from an untyped mapping; it fails with a `DataValidationError`
when `name` is missing or not a string, `available` is not a boolean,
`category` is missing, not a string, or not an enumeration member, or a
required key is absent; string price input is normalized and parsed.
It does not touch `id`. -/
def Product.deserialize (p : Product) (data : Payload) : Except DataValidationError Product := do
  let nameV ← match data.name with
    | some (JsonVal.str s) => pure s
    | _ => throw (DataValidationError.badField "name")
  let descV ← match data.description with
    | some (JsonVal.str s) => pure s
    | _ => throw (DataValidationError.badField "description")
  let priceV ← match data.price with
    | some (JsonVal.num d) => pure d
    | some (JsonVal.str s) =>
      match parseDecimal (normalizePriceText s.toList) with
      | some d => pure d
      | none => throw (DataValidationError.badField "price")
    | _ => throw (DataValidationError.badField "price")
  let availV ← match data.available with
    | some (JsonVal.jbool b) => pure b
    | _ => throw (DataValidationError.badField "available")
  let catV ← match data.category with
    | some (JsonVal.str s) =>
      match categoryOfName s with
      | some c => pure c
      | none => throw (DataValidationError.badField "category")
    | _ => throw (DataValidationError.badField "category")
  pure { p with name := nameV, description := descV, price := priceV,
                available := availV, category := catV }

/-- The body of an HTTP response. -/
inductive Body
  | empty
  | json (p : ProductJson)
  | jsonList (l : List ProductJson)
  | message (s : String)
deriving DecidableEq, Repr

/-- An HTTP response: status code, body, and optional `Location`
header. -/
structure HttpResponse where
  status : Nat
  body : Body
  location : Option String
deriving DecidableEq, Repr

/-- A body-bearing HTTP request: the `Content-Type` header (if any) and
the JSON payload. -/
structure HttpRequest where
  contentType : Option String
  body : Payload
deriving DecidableEq, Repr

/-- `check_content_type` of `service/routes.py`: aborts with 415 when
the `Content-Type` header is absent or differs from the expected media
type; `none` means the check passed. -/
def check_content_type (expected : String) (req : HttpRequest) : Option HttpResponse :=
  match req.contentType with
  | none => some ⟨415, Body.message ("Content-Type must be " ++ expected), none⟩
  | some ct =>
    if ct = expected then none
    else some ⟨415, Body.message ("Content-Type must be " ++ expected), none⟩

/-- The URL `url_for("get_products", product_id=pid)` resolves to. -/
def locationUrl (pid : Nat) : String :=
  "/products/" ++ toString pid

/-- `create_products` of `service/routes.py`: checks the content type,
deserializes the body into a fresh product, creates it, and answers 201
with the serialized product and a `Location` header.  A validation
failure surfaces as a 400 client error with the store untouched. -/
def create_products (req : HttpRequest) (st : Store) : HttpResponse × Store :=
  match check_content_type "application/json" req with
  | some resp => (resp, st)
  | none =>
    match Product.deserialize Product.empty req.body with
    | .error _ => (⟨400, Body.message "data validation error", none⟩, st)
    | .ok product =>
      let (p2, st2) := product.create st
      (⟨201, Body.json p2.serialize, some (locationUrl (p2.id.getD 0))⟩, st2)

/-- `get_products` of `service/routes.py`: fetch by id, 404 when
absent. -/
def get_products (pid : Nat) (st : Store) : HttpResponse :=
  match find pid st with
  | none => ⟨404, Body.message ("Product with id " ++ toString pid ++ " was not found."), none⟩
  | some p => ⟨200, Body.json p.serialize, none⟩

/-- `update_product` of `service/routes.py`: checks the content type,
finds the existing record (404 when absent), deserializes the body onto
it, and persists with `update`. -/
def update_product (pid : Nat) (req : HttpRequest) (st : Store) : HttpResponse × Store :=
  match check_content_type "application/json" req with
  | some resp => (resp, st)
  | none =>
    match find pid st with
    | none => (⟨404, Body.message ("Product with id " ++ toString pid ++ " was not found."), none⟩, st)
    | some p =>
      match Product.deserialize p req.body with
      | .error _ => (⟨400, Body.message "data validation error", none⟩, st)
      | .ok p2 =>
        match p2.update st with
        | .error _ => (⟨400, Body.message "data validation error", none⟩, st)
        | .ok st2 => (⟨200, Body.json p2.serialize, none⟩, st2)

/-- `delete_product` of `service/routes.py`: deletes the found product
if any, and answers 204 with an empty body either way. -/
def delete_product (pid : Nat) (st : Store) : HttpResponse × Store :=
  let st2 := match find pid st with
    | some p => p.delete st
    | none => st
  (⟨204, Body.empty, none⟩, st2)

/-- The query parameters `list_products` reads, each `none` when absent
from the query string. -/
structure QueryParams where
  name : Option String
  category : Option String
  available : Option String
  price : Option String
deriving DecidableEq, Repr

/-- Python truthiness of `request.args.get(...)`: present and
non-empty. -/
def truthyParam : Option String → Bool
  | none => false
  | some s => !(s == "")

/-- The failures `list_products` can propagate: the `AttributeError` of
an unrecognized category name, and a price text that does not parse. -/
inductive ListError
  | unknownCategory (s : String)
  | badPrice (s : String)
deriving DecidableEq, Repr

/-- The availability parse of `list_products`:
`available.lower() in ["true", "yes", "1"]`. -/
def parseAvailable (s : String) : Bool :=
  (["true", "yes", "1"] : List String).contains (strLower s)

/-- `list_products` of `service/routes.py`: dispatches on the first
truthy query parameter in the order `name`, `category`, `available`,
`price`, falling back to all products, and returns the serialized
results. -/
def list_products (q : QueryParams) (st : Store) : Except ListError (List ProductJson) := do
  let products ←
    if truthyParam q.name then
      pure (find_by_name (q.name.getD "") st)
    else if truthyParam q.category then
      match categoryOfName (strUpper (q.category.getD "")) with
      | some c => pure (find_by_category c st)
      | none => throw (ListError.unknownCategory (q.category.getD ""))
    else if truthyParam q.available then
      pure (find_by_availability (parseAvailable (q.available.getD "")) st)
    else if truthyParam q.price then
      match find_by_price (PriceInput.text (q.price.getD "").toList) st with
      | some ps => pure ps
      | none => throw (ListError.badPrice (q.price.getD ""))
    else
      pure (allProducts st)
  pure (products.map Product.serialize)

/-! ## Digit strings -/

theorem digitVal_digitChar {k : Nat} (h : k < 10) : digitVal (digitChar k) = some k := by
  interval_cases k <;> rfl

theorem digitsOf_eq_of_lt {n : Nat} (h : n < 10) : digitsOf n = [digitChar n] := by
  rw [digitsOf]
  simp [h]

theorem digitsOf_eq_of_ge {n : Nat} (h : 10 ≤ n) :
    digitsOf n = digitsOf (n / 10) ++ [digitChar (n % 10)] := by
  rw [digitsOf]
  simp [Nat.not_lt.mpr h]

theorem digitsOf_ne_nil (n : Nat) : digitsOf n ≠ [] := by
  by_cases h : n < 10
  · rw [digitsOf_eq_of_lt h]; simp
  · rw [digitsOf_eq_of_ge (Nat.not_lt.mp h)]; simp

theorem allDigits_append (a b : List Char) :
    allDigits (a ++ b) = (allDigits a && allDigits b) := by
  simp [allDigits, List.all_append]

theorem allDigits_digitsOf (n : Nat) : allDigits (digitsOf n) = true := by
  induction n using Nat.strong_induction_on with
  | _ n ih =>
    by_cases h : n < 10
    · rw [digitsOf_eq_of_lt h]
      simp [allDigits, digitVal_digitChar h]
    · have h10 : 10 ≤ n := Nat.not_lt.mp h
      have hdiv : n / 10 < n := Nat.div_lt_self (by omega) (by omega)
      have hmod : n % 10 < 10 := Nat.mod_lt _ (by omega)
      rw [digitsOf_eq_of_ge h10, allDigits_append, ih _ hdiv]
      simp [allDigits, digitVal_digitChar hmod]

theorem natVal_foldl_init (b : List Char) (x : Nat) :
    b.foldl (fun a c => 10 * a + ((digitVal c).getD 0)) x
      = x * 10 ^ b.length + natVal b := by
  induction b generalizing x with
  | nil => simp [natVal]
  | cons c b ih =>
    show b.foldl _ (10 * x + _) = _
    rw [ih (10 * x + ((digitVal c).getD 0))]
    have : natVal (c :: b) = ((digitVal c).getD 0) * 10 ^ b.length + natVal b := by
      show b.foldl _ (10 * 0 + _) = _
      rw [ih (10 * 0 + ((digitVal c).getD 0))]
      ring_nf
    rw [this]
    simp [List.length_cons]
    ring

theorem natVal_append (a b : List Char) :
    natVal (a ++ b) = natVal a * 10 ^ b.length + natVal b := by
  show (a ++ b).foldl _ 0 = _
  rw [List.foldl_append]
  exact natVal_foldl_init b (natVal a)

theorem natVal_digitsOf (n : Nat) : natVal (digitsOf n) = n := by
  induction n using Nat.strong_induction_on with
  | _ n ih =>
    by_cases h : n < 10
    · rw [digitsOf_eq_of_lt h]
      simp [natVal, digitVal_digitChar h]
    · have h10 : 10 ≤ n := Nat.not_lt.mp h
      have hdiv : n / 10 < n := Nat.div_lt_self (by omega) (by omega)
      have hmod : n % 10 < 10 := Nat.mod_lt _ (by omega)
      rw [digitsOf_eq_of_ge h10, natVal_append, ih _ hdiv]
      simp [natVal, digitVal_digitChar hmod]
      omega

theorem length_digitsOf_le {n k : Nat} (hk : 0 < k) (h : n < 10 ^ k) :
    (digitsOf n).length ≤ k := by
  induction n using Nat.strong_induction_on generalizing k with
  | _ n ih =>
    by_cases hn : n < 10
    · rw [digitsOf_eq_of_lt hn]; simpa using hk
    · have h10 : 10 ≤ n := Nat.not_lt.mp hn
      have hdiv : n / 10 < n := Nat.div_lt_self (by omega) (by omega)
      rw [digitsOf_eq_of_ge h10]
      have hk2 : 1 < k := by
        by_contra hc
        have : k = 1 := by omega
        subst this
        simp [pow_one] at h
        omega
      have hlt : n / 10 < 10 ^ (k - 1) := by
        have : 10 ^ k = 10 ^ (k - 1) * 10 := by
          rw [← pow_succ]
          congr 1
          omega
        rw [Nat.div_lt_iff_lt_mul (by omega)]
        omega
      have := ih _ hdiv (k := k - 1) (by omega) hlt
      simp [List.length_append]
      omega

theorem natVal_replicate_zero (k : Nat) (cs : List Char) :
    natVal (List.replicate k '0' ++ cs) = natVal cs := by
  induction k with
  | zero => simp
  | succ k ih =>
    rw [List.replicate_succ]
    simpa [natVal] using ih

theorem allDigits_replicate_zero (k : Nat) : allDigits (List.replicate k '0') = true := by
  rw [allDigits, List.all_eq_true]
  intro c hc
  rw [List.eq_of_mem_replicate hc]
  rfl

theorem natVal_padLeft (w : Nat) (cs : List Char) : natVal (padLeft w cs) = natVal cs :=
  natVal_replicate_zero _ cs

theorem allDigits_padLeft (w : Nat) (cs : List Char) (h : allDigits cs = true) :
    allDigits (padLeft w cs) = true := by
  rw [padLeft, allDigits_append, allDigits_replicate_zero, h]
  rfl

theorem length_padLeft_of_le {w : Nat} {cs : List Char} (h : cs.length ≤ w) :
    (padLeft w cs).length = w := by
  simp [padLeft]
  omega

/-! ## Decimal parsing round trip -/

theorem digitVal_dot : digitVal '.' = none := rfl

theorem digitVal_dash : digitVal '-' = none := rfl

theorem allDigits_no_dot {cs : List Char} (h : allDigits cs = true) :
    ∀ c ∈ cs, c ≠ '.' := by
  intro c hc heq
  rw [allDigits, List.all_eq_true] at h
  have hd := h c hc
  rw [heq, digitVal_dot] at hd
  simp at hd

theorem splitAtDot_no_dot {cs : List Char} (h : ∀ c ∈ cs, c ≠ '.') :
    splitAtDot cs = (cs, none) := by
  induction cs with
  | nil => rfl
  | cons c rest ih =>
    have hc : c ≠ '.' := h c (by simp)
    have hrec := ih (fun x hx => h x (by simp [hx]))
    simp [splitAtDot, hc, hrec]

theorem splitAtDot_append_dot {a : List Char} (b : List Char) (h : ∀ c ∈ a, c ≠ '.') :
    splitAtDot (a ++ '.' :: b) = (a, some b) := by
  induction a with
  | nil => simp [splitAtDot]
  | cons c rest ih =>
    have hc : c ≠ '.' := h c (by simp)
    have hrec := ih (fun x hx => h x (by simp [hx]))
    simp [splitAtDot, hc, hrec]

theorem parseUnsigned_digitsOf (n : Nat) : parseUnsigned (digitsOf n) = some ⟨(n : Int), 0⟩ := by
  rw [parseUnsigned, splitAtDot_no_dot (allDigits_no_dot (allDigits_digitsOf n))]
  simp [digitsOf_ne_nil n, allDigits_digitsOf n, natVal_digitsOf n]

theorem parseUnsigned_frac (n s : Nat) (hs : 0 < s) :
    parseUnsigned (digitsOf (n / 10 ^ s) ++ '.' :: padLeft s (digitsOf (n % 10 ^ s)))
      = some ⟨(n : Int), s⟩ := by
  have hmod : n % 10 ^ s < 10 ^ s := Nat.mod_lt _ (by positivity)
  have hlen : (padLeft s (digitsOf (n % 10 ^ s))).length = s :=
    length_padLeft_of_le (length_digitsOf_le hs hmod)
  have hfpd : allDigits (padLeft s (digitsOf (n % 10 ^ s))) = true :=
    allDigits_padLeft _ _ (allDigits_digitsOf _)
  have hipd : allDigits (digitsOf (n / 10 ^ s)) = true := allDigits_digitsOf _
  have hfpne : padLeft s (digitsOf (n % 10 ^ s)) ≠ [] := by
    intro hc
    rw [hc] at hlen
    simp at hlen
    omega
  have hnv : natVal (digitsOf (n / 10 ^ s) ++ padLeft s (digitsOf (n % 10 ^ s))) = n := by
    rw [natVal_append, hlen, natVal_padLeft, natVal_digitsOf, natVal_digitsOf]
    exact Nat.div_add_mod' n (10 ^ s)
  rw [parseUnsigned, splitAtDot_append_dot _ (allDigits_no_dot hipd)]
  simp [digitsOf_ne_nil, hipd, hfpd, hfpne, hnv, hlen]

theorem parseDecimal_eq_parseUnsigned {c : Char} {rest : List Char} (hc : c ≠ '-') :
    parseDecimal (c :: rest) = parseUnsigned (c :: rest) := by
  simp [parseDecimal, hc]

theorem head_digit_ne_dash {c : Char} {rest : List Char}
    (h : allDigits (c :: rest) = true) : c ≠ '-' := by
  intro heq
  rw [allDigits, List.all_eq_true] at h
  have hd := h c (by simp)
  rw [heq, digitVal_dash] at hd
  simp at hd

theorem toChars_nonneg_szero {m : Int} (hm : ¬m < 0) :
    Decimal.toChars ⟨m, 0⟩ = digitsOf m.natAbs := by
  simp [Decimal.toChars, hm]

theorem toChars_nonneg_spos {m : Int} {s : Nat} (hm : ¬m < 0) (hs : s ≠ 0) :
    Decimal.toChars ⟨m, s⟩
      = digitsOf (m.natAbs / 10 ^ s) ++ '.' :: padLeft s (digitsOf (m.natAbs % 10 ^ s)) := by
  simp [Decimal.toChars, hm, hs]

theorem toChars_neg_szero {m : Int} (hm : m < 0) :
    Decimal.toChars ⟨m, 0⟩ = '-' :: digitsOf m.natAbs := by
  simp [Decimal.toChars, hm]

theorem toChars_neg_spos {m : Int} {s : Nat} (hm : m < 0) (hs : s ≠ 0) :
    Decimal.toChars ⟨m, s⟩
      = '-' :: (digitsOf (m.natAbs / 10 ^ s) ++ '.' :: padLeft s (digitsOf (m.natAbs % 10 ^ s))) := by
  simp [Decimal.toChars, hm, hs]

theorem parseDecimal_toChars (d : Decimal) : parseDecimal (Decimal.toChars d) = some d := by
  obtain ⟨m, s⟩ := d
  by_cases hm : m < 0
  · by_cases hs : s = 0
    · subst hs
      rw [toChars_neg_szero hm]
      simp [parseDecimal, parseUnsigned_digitsOf, Decimal.mk.injEq, Int.ofNat_eq_natCast]
      simp [abs_of_nonpos (le_of_lt hm)]
    · rw [toChars_neg_spos hm hs]
      simp [parseDecimal, parseUnsigned_frac m.natAbs s (Nat.pos_of_ne_zero hs),
        Decimal.mk.injEq, Int.ofNat_eq_natCast]
      simp [abs_of_nonpos (le_of_lt hm)]
  · by_cases hs : s = 0
    · subst hs
      rw [toChars_nonneg_szero hm]
      obtain ⟨c, rest, hcr⟩ := List.exists_cons_of_ne_nil (digitsOf_ne_nil m.natAbs)
      have hdig : allDigits (c :: rest) = true := hcr ▸ allDigits_digitsOf m.natAbs
      rw [hcr, parseDecimal_eq_parseUnsigned (head_digit_ne_dash hdig), ← hcr,
        parseUnsigned_digitsOf]
      simp [Decimal.mk.injEq, Int.ofNat_eq_natCast]
      omega
    · rw [toChars_nonneg_spos hm hs]
      obtain ⟨c, rest, hcr⟩ := List.exists_cons_of_ne_nil (digitsOf_ne_nil (m.natAbs / 10 ^ s))
      have hdig : allDigits (c :: rest) = true := hcr ▸ allDigits_digitsOf _
      rw [hcr, List.cons_append, parseDecimal_eq_parseUnsigned (head_digit_ne_dash hdig),
        ← List.cons_append, ← hcr, parseUnsigned_frac m.natAbs s (Nat.pos_of_ne_zero hs)]
      simp [Decimal.mk.injEq, Int.ofNat_eq_natCast]
      omega

/-! ## Whitespace and quote stripping -/

theorem dropWhile_space_append {ws : List Char} (xs : List Char)
    (h : ∀ c ∈ ws, isSpaceChar c = true) :
    (ws ++ xs).dropWhile isSpaceChar = xs.dropWhile isSpaceChar := by
  induction ws with
  | nil => rfl
  | cons c rest ih =>
    have hc := h c (by simp)
    rw [List.cons_append, List.dropWhile_cons, if_pos hc]
    exact ih (fun x hx => h x (by simp [hx]))

theorem trimChars_wrap (ws1 ws2 body : List Char)
    (h1 : ∀ c ∈ ws1, isSpaceChar c = true) (h2 : ∀ c ∈ ws2, isSpaceChar c = true) :
    trimChars (ws1 ++ '"' :: body ++ '"' :: ws2) = '"' :: body ++ ['"'] := by
  have hq : isSpaceChar '"' = false := rfl
  have assoc1 : ws1 ++ '"' :: body ++ '"' :: ws2 = ws1 ++ ('"' :: (body ++ '"' :: ws2)) := by
    simp
  rw [trimChars, assoc1, dropWhile_space_append _ h1, List.dropWhile_cons, if_neg (by simp [hq])]
  have e2 : ('"' :: (body ++ '"' :: ws2)).reverse
      = ws2.reverse ++ ('"' :: (body.reverse ++ ['"'])) := by
    simp
  rw [e2, dropWhile_space_append _ (fun c hc => h2 c (List.mem_reverse.mp hc)),
    List.dropWhile_cons, if_neg (by simp [hq])]
  simp

theorem stripOneQuoteLayer_wrap (body : List Char) :
    stripOneQuoteLayer ('"' :: body ++ ['"']) = body := by
  have assoc1 : '"' :: body ++ ['"'] = '"' :: (body ++ ['"']) := by simp
  rw [stripOneQuoteLayer, if_pos]
  · rw [assoc1, show ('"' :: (body ++ ['"'])).drop 1 = body ++ ['"'] from rfl,
      List.dropLast_concat]
  · have hhead : ('"' :: body ++ ['"']).headD ' ' = '"' := by
      rw [assoc1]
      rfl
    have hlast : ('"' :: body ++ ['"']).getLastD ' ' = '"' := List.getLastD_concat _ _ _
    have hlen : ('"' :: body ++ ['"']).length = body.length + 2 := by simp
    simp [hhead, hlast, hlen, isQuoteChar]
    left
    rw [← List.cons_append, List.getLast?_concat]
    rfl

theorem normalizePriceText_wrap (ws1 ws2 body : List Char)
    (h1 : ∀ c ∈ ws1, isSpaceChar c = true) (h2 : ∀ c ∈ ws2, isSpaceChar c = true) :
    normalizePriceText (ws1 ++ '"' :: body ++ '"' :: ws2) = body := by
  rw [normalizePriceText, trimChars_wrap ws1 ws2 body h1 h2, stripOneQuoteLayer_wrap]

theorem except_pure_eq_ok {e a : Type} (x : a) : (pure x : Except e a) = Except.ok x := rfl

theorem except_ok_bind {e a b : Type} (x : a) (f : a → Except e b) :
    ((Except.ok x : Except e a) >>= f) = f x := rfl

theorem except_map_throw {e a b : Type} (f : a → b) (err : e) :
    (f <$> (throw err : Except e a)) = Except.error err := rfl

/-! ## Claim theorems -/

/-- C8: for every decimal value `d` and every stored population, `find_by_price`
applied to `d` and `find_by_price` applied to a textual form of `d` padded with
surrounding whitespace and one layer of quote characters return identical
result sets, namely exactly the products whose `price` equals `d` under
decimal equality. -/
theorem find_by_price_text_agrees (d : Decimal) (st : Store) (ws1 ws2 : List Char)
    (h1 : ∀ c ∈ ws1, isSpaceChar c = true) (h2 : ∀ c ∈ ws2, isSpaceChar c = true) :
    find_by_price (PriceInput.text (ws1 ++ '"' :: d.toChars ++ '"' :: ws2)) st
        = find_by_price (PriceInput.dec d) st
    ∧ find_by_price (PriceInput.dec d) st
        = some (st.rows.filter (fun r => r.price.eqv d)) := by
  refine ⟨?_, rfl⟩
  show (parseDecimal (normalizePriceText (ws1 ++ '"' :: d.toChars ++ '"' :: ws2))).map
      (fun x => find_by_price_dec x st) = some (find_by_price_dec d st)
  rw [normalizePriceText_wrap ws1 ws2 d.toChars h1 h2, parseDecimal_toChars]
  rfl

/-- Witness for C8 at `12.5` against a store holding a product priced
`12.50`, with one space of padding on each side. -/
theorem find_by_price_text_agrees_witness :
    find_by_price (PriceInput.text ([' '] ++ '"' :: (Decimal.mk 125 1).toChars ++ '"' :: [' ']))
        ⟨[⟨some 1, "Fedora", "A red hat", ⟨1250, 2⟩, true, Category.CLOTHS⟩], 2⟩
      = find_by_price (PriceInput.dec ⟨125, 1⟩)
        ⟨[⟨some 1, "Fedora", "A red hat", ⟨1250, 2⟩, true, Category.CLOTHS⟩], 2⟩ :=
  (find_by_price_text_agrees ⟨125, 1⟩
    ⟨[⟨some 1, "Fedora", "A red hat", ⟨1250, 2⟩, true, Category.CLOTHS⟩], 2⟩
    [' '] [' '] (by decide) (by decide)).1

/-- C6: for every `Product` record whose `id` is unset and for all field
values, `update` fails with a `DataValidationError` and never yields a
modified store. -/
theorem update_with_unset_id_fails (p : Product) (st : Store) (h : p.id = none) :
    Product.update p st = .error DataValidationError.missingId
    ∧ ∀ st2, Product.update p st ≠ .ok st2 := by
  have he : Product.update p st = .error DataValidationError.missingId := by
    simp [Product.update, h]
  exact ⟨he, fun st2 hc => by rw [he] at hc; cases hc⟩

/-- Witness for C6: a fresh product with unset `id` against the empty
store. -/
theorem update_with_unset_id_fails_witness :
    Product.update Product.empty ⟨[], 0⟩ = .error DataValidationError.missingId :=
  (update_with_unset_id_fails Product.empty ⟨[], 0⟩ rfl).1

/-- C7: `DELETE /products/{id}` answers 204 with an empty body whether or
not the id exists, a second delete of the same id produces the same
response, and the second call leaves the store unchanged. -/
theorem delete_idempotent (pid : Nat) (st : Store) :
    (delete_product pid st).1 = ⟨204, Body.empty, none⟩
    ∧ (delete_product pid (delete_product pid st).2).1 = ⟨204, Body.empty, none⟩
    ∧ (delete_product pid (delete_product pid st).2).2 = (delete_product pid st).2 := by
  refine ⟨rfl, rfl, ?_⟩
  cases h : find pid st with
  | none =>
    simp [delete_product, h]
  | some p =>
    have h2 : st.rows.find? (fun r => r.id == some pid) = some p := h
    have hpid : p.id = some pid := by simpa using List.find?_some h2
    have hfind : find pid (Product.delete p st) = none := by
      rw [find, List.find?_eq_none]
      intro x hx
      simp only [Product.delete] at hx
      have hx2 := (List.mem_filter.mp hx).2
      simp [hpid] at hx2
      simp [hx2]
    simp [delete_product, h, hfind]

/-- C3: for every body-bearing request whose `Content-Type` is absent or
not exactly `application/json`, both `POST /products` and
`PUT /products/{id}` answer 415 and leave the store untouched. -/
theorem content_type_415_no_persistence (req : HttpRequest) (st : Store) (pid : Nat)
    (h : req.contentType ≠ some "application/json") :
    (create_products req st).1.status = 415
    ∧ (create_products req st).2 = st
    ∧ (update_product pid req st).1.status = 415
    ∧ (update_product pid req st).2 = st := by
  have hcc : check_content_type "application/json" req
      = some ⟨415, Body.message ("Content-Type must be " ++ "application/json"), none⟩ := by
    rw [check_content_type]
    cases hc : req.contentType with
    | none => rfl
    | some ct =>
      rw [hc] at h
      have hne : ¬ct = "application/json" := fun he => h (by rw [he])
      simp [hne]
  refine ⟨?_, ?_, ?_, ?_⟩ <;> simp [create_products, update_product, hcc]

/-- Witness for C3: a `text/plain` POST and PUT against the empty store. -/
theorem content_type_415_no_persistence_witness :
    (create_products ⟨some "text/plain", ⟨none, none, none, none, none⟩⟩ ⟨[], 0⟩).1.status = 415
    ∧ (create_products ⟨some "text/plain", ⟨none, none, none, none, none⟩⟩ ⟨[], 0⟩).2 = ⟨[], 0⟩ :=
  ⟨(content_type_415_no_persistence ⟨some "text/plain", ⟨none, none, none, none, none⟩⟩
      ⟨[], 0⟩ 1 (by decide)).1,
   (content_type_415_no_persistence ⟨some "text/plain", ⟨none, none, none, none, none⟩⟩
      ⟨[], 0⟩ 1 (by decide)).2.1⟩

/-- C1: on `GET /products` exactly one filter query parameter is honored
even if several are supplied, in the precedence order `name`, `category`,
`available`, `price`: the winning parameter alone determines the result,
and with no truthy parameter the handler returns all stored products. -/
theorem list_filter_precedence (q : QueryParams) (st : Store) :
    (truthyParam q.name = true →
       list_products q st = list_products ⟨q.name, none, none, none⟩ st)
    ∧ (truthyParam q.name = false → truthyParam q.category = true →
       list_products q st = list_products ⟨none, q.category, none, none⟩ st)
    ∧ (truthyParam q.name = false → truthyParam q.category = false →
         truthyParam q.available = true →
       list_products q st = list_products ⟨none, none, q.available, none⟩ st)
    ∧ (truthyParam q.name = false → truthyParam q.category = false →
         truthyParam q.available = false → truthyParam q.price = true →
       list_products q st = list_products ⟨none, none, none, q.price⟩ st)
    ∧ (truthyParam q.name = false → truthyParam q.category = false →
         truthyParam q.available = false → truthyParam q.price = false →
       list_products q st = .ok ((allProducts st).map Product.serialize)) := by
  obtain ⟨n, c, a, p⟩ := q
  have hnone : truthyParam none = false := rfl
  refine ⟨fun h1 => ?_, fun h1 h2 => ?_, fun h1 h2 h3 => ?_, fun h1 h2 h3 h4 => ?_,
    fun h1 h2 h3 h4 => ?_⟩
  · simp [list_products, h1]
  · simp [list_products, h1, h2, hnone]
  · simp [list_products, h1, h2, h3, hnone]
  · simp [list_products, h1, h2, h3, h4, hnone]
  · simp [list_products, h1, h2, h3, h4, allProducts, except_pure_eq_ok, except_ok_bind]

/-- Witness for C1: a request supplying both `name` and `category` is
answered from the `name` filter alone. -/
theorem list_filter_precedence_witness :
    list_products ⟨some "x", some "y", none, none⟩ ⟨[], 0⟩
      = list_products ⟨some "x", none, none, none⟩ ⟨[], 0⟩ :=
  (list_filter_precedence ⟨some "x", some "y", none, none⟩ ⟨[], 0⟩).1 (by decide)

/-- C4: a `GET /products` request whose `category` query value names no
member of the `Category` enumeration fails with an error; it never
answers with a result list, in particular not with an empty one. -/
theorem unknown_category_fails (q : QueryParams) (st : Store) (s : String)
    (hn : truthyParam q.name = false) (hc : q.category = some s) (hs : ¬s = "")
    (hu : categoryOfName (strUpper s) = none) :
    list_products q st = .error (ListError.unknownCategory s)
    ∧ ∀ l, list_products q st ≠ .ok l := by
  have ht : truthyParam q.category = true := by
    rw [hc]
    simp [truthyParam, hs]
  have hts : truthyParam (some s) = true := by simp [truthyParam, hs]
  have he : list_products q st = .error (ListError.unknownCategory s) := by
    simp [list_products, hn, ht, hc, hu, hts, except_map_throw]
  exact ⟨he, fun l hcon => by rw [he] at hcon; cases hcon⟩

/-- Witness for C4: `?category=SPORTS` against the empty store. -/
theorem unknown_category_fails_witness :
    list_products ⟨none, some "SPORTS", none, none⟩ ⟨[], 0⟩
      = .error (ListError.unknownCategory "SPORTS") :=
  (unknown_category_fails ⟨none, some "SPORTS", none, none⟩ ⟨[], 0⟩ "SPORTS"
    rfl rfl (by decide) (by decide)).1

/-- C5: the `available` query value parses to `true` exactly when its
lowercased form is `"true"`, `"yes"` or `"1"`, and when the `available`
filter wins the dispatch the result is exactly the products whose
`available` field equals that boolean. -/
theorem available_filter_parsing (s : String) (q : QueryParams) (st : Store)
    (hn : truthyParam q.name = false) (hc : truthyParam q.category = false)
    (ha : q.available = some s) (hs : ¬s = "") :
    (parseAvailable s = true ↔ (strLower s = "true" ∨ strLower s = "yes" ∨ strLower s = "1"))
    ∧ list_products q st
        = .ok ((st.rows.filter (fun r => r.available == parseAvailable s)).map
            Product.serialize) := by
  constructor
  · rw [parseAvailable]
    simp [List.contains]
  · have ht : truthyParam q.available = true := by
      rw [ha]
      simp [truthyParam, hs]
    have hts : truthyParam (some s) = true := by simp [truthyParam, hs]
    simp [list_products, hn, hc, ht, ha, hts, find_by_availability, except_pure_eq_ok, except_ok_bind]

/-- Witness for C5: `?available=YES` against the empty store. -/
theorem available_filter_parsing_witness :
    (parseAvailable "YES" = true
      ↔ (strLower "YES" = "true" ∨ strLower "YES" = "yes" ∨ strLower "YES" = "1")) :=
  (available_filter_parsing "YES" ⟨none, none, some "YES", none⟩ ⟨[], 0⟩
    rfl rfl rfl (by decide)).1

/-- C9: a query parameter supplied with an empty-string value is treated
as absent by the list dispatch (the handler tests truthiness, not key
presence): dropping such a parameter never changes the answer, so
`?name=&category=FOOD` falls through to the category filter and `?name=`
alone returns all products. -/
theorem empty_valued_param_ignored (q : QueryParams) (st : Store) :
    (q.name = some "" → list_products q st = list_products { q with name := none } st)
    ∧ (q.category = some "" → list_products q st = list_products { q with category := none } st)
    ∧ (q.available = some "" → list_products q st = list_products { q with available := none } st)
    ∧ (q.price = some "" → list_products q st = list_products { q with price := none } st)
    ∧ list_products ⟨some "", some "FOOD", none, none⟩ st
        = .ok ((find_by_category Category.FOOD st).map Product.serialize)
    ∧ list_products ⟨some "", none, none, none⟩ st
        = .ok ((allProducts st).map Product.serialize) := by
  obtain ⟨n, c, a, p⟩ := q
  have hemp : truthyParam (some "") = false := rfl
  have hnone : truthyParam none = false := rfl
  refine ⟨fun h => ?_, fun h => ?_, fun h => ?_, fun h => ?_, ?_, ?_⟩
  · subst h; simp [list_products, hemp, hnone]
  · subst h; simp [list_products, hemp, hnone]
  · subst h; simp [list_products, hemp, hnone]
  · subst h; simp [list_products, hemp, hnone]
  · simp [list_products, hemp, show truthyParam (some "FOOD") = true from rfl,
      show categoryOfName (strUpper "FOOD") = some Category.FOOD from by decide,
      except_pure_eq_ok, except_ok_bind]
  · simp [list_products, hemp, hnone, allProducts, except_pure_eq_ok, except_ok_bind]

/-- Witness for C9: dropping the empty `name` parameter leaves the
category-filtered answer unchanged. -/
theorem empty_valued_param_ignored_witness :
    list_products ⟨some "", some "FOOD", none, none⟩ ⟨[], 5⟩
      = list_products ⟨none, some "FOOD", none, none⟩ ⟨[], 5⟩ :=
  (empty_valued_param_ignored ⟨some "", some "FOOD", none, none⟩ ⟨[], 5⟩).1 rfl

/-- C10: the `category` query parameter is matched case-insensitively:
the supplied value is uppercased before the enumeration lookup, so any
capitalization of a member's name selects that member's filter. -/
theorem category_param_case_insensitive (cat : Category) (s : String) (st : Store)
    (h : strUpper s = cat.name) :
    categoryOfName (strUpper s) = some cat
    ∧ list_products ⟨none, some s, none, none⟩ st
        = .ok ((find_by_category cat st).map Product.serialize) := by
  have hs : ¬s = "" := by
    intro he
    subst he
    rw [show strUpper "" = "" from rfl] at h
    cases cat <;> exact absurd h (by decide)
  have hcat : categoryOfName (strUpper s) = some cat := by
    rw [h]
    cases cat <;> decide
  refine ⟨hcat, ?_⟩
  have ht : truthyParam (some s) = true := by simp [truthyParam, hs]
  simp [list_products, show truthyParam none = false from rfl, ht, hcat, except_pure_eq_ok, except_ok_bind]

/-- Witness for C10: `?category=cloths` selects the `CLOTHS` filter. -/
theorem category_param_case_insensitive_witness :
    categoryOfName (strUpper "cloths") = some Category.CLOTHS :=
  (category_param_case_insensitive Category.CLOTHS "cloths" ⟨[], 0⟩ (by decide)).1

/-- C2: for every valid creation payload, `POST /products` answers 201
with the serialized product and a `Location` header naming the new
resource; the assigned id was previously unused, and both `find` and the
GET the `Location` resolves to return a record equal to the submitted
fields with that fresh id. -/
theorem create_roundtrip (req : HttpRequest) (st : Store) (p : Product)
    (hct : req.contentType = some "application/json")
    (hde : Product.deserialize Product.empty req.body = .ok p)
    (hinv : ∀ r ∈ st.rows, ∀ i, r.id = some i → i < st.nextId) :
    (create_products req st).1.status = 201
    ∧ (create_products req st).1.body
        = Body.json (Product.serialize { p with id := some st.nextId })
    ∧ (create_products req st).1.location = some (locationUrl st.nextId)
    ∧ find st.nextId st = none
    ∧ find st.nextId (create_products req st).2 = some { p with id := some st.nextId }
    ∧ get_products st.nextId (create_products req st).2
        = ⟨200, Body.json (Product.serialize { p with id := some st.nextId }), none⟩ := by
  have hcc : check_content_type "application/json" req = none := by
    rw [check_content_type, hct]
    simp
  have hfresh : find st.nextId st = none := by
    rw [find, List.find?_eq_none]
    intro x hx
    simp only [beq_iff_eq]
    intro hxid
    exact absurd (hinv x hx _ hxid) (by omega)
  have hcr : create_products req st
      = (⟨201, Body.json (Product.serialize { p with id := some st.nextId }),
          some (locationUrl st.nextId)⟩,
         ⟨st.rows ++ [{ p with id := some st.nextId }], st.nextId + 1⟩) := by
    simp [create_products, hcc, hde, Product.create]
  have hfind2 : find st.nextId (create_products req st).2
      = some { p with id := some st.nextId } := by
    rw [hcr]
    show (st.rows ++ [{ p with id := some st.nextId }]).find?
        (fun r => r.id == some st.nextId) = some { p with id := some st.nextId }
    rw [List.find?_append, show st.rows.find? (fun r => r.id == some st.nextId) = none
      from hfresh]
    simp
  refine ⟨by rw [hcr], by rw [hcr], by rw [hcr], hfresh, hfind2, ?_⟩
  simp [get_products, hfind2]

/-- Witness for C2: the Fedora payload of end-to-end scenario A against
the empty store. -/
theorem create_roundtrip_witness :
    (create_products ⟨some "application/json",
        ⟨some (JsonVal.str "Fedora"), some (JsonVal.str "A red hat"),
         some (JsonVal.num ⟨1250, 2⟩), some (JsonVal.jbool true),
         some (JsonVal.str "CLOTHS")⟩⟩ ⟨[], 0⟩).1.status = 201 :=
  (create_roundtrip ⟨some "application/json",
      ⟨some (JsonVal.str "Fedora"), some (JsonVal.str "A red hat"),
       some (JsonVal.num ⟨1250, 2⟩), some (JsonVal.jbool true),
       some (JsonVal.str "CLOTHS")⟩⟩ ⟨[], 0⟩
    ⟨none, "Fedora", "A red hat", ⟨1250, 2⟩, true, Category.CLOTHS⟩
    rfl rfl (by simp)).1

end ProductStore
